import Mathlib

/-!
Verification of the rendering-loop logic of the Mikey-Portfolio repository.

The definitions below are shallow embeddings of the TypeScript source:

* `useScrollProgress`   — src/unnamed/part_001, hook `useScrollProgress`
* `normalizedX/Y`       — src/unnamed/part_001, hook `useMousePosition`
* `useDeviceQuality`    — src/unnamed/part_002, hook `useDeviceQuality`
* `postProcessingEffects` — src/unnamed/part_002, component `PostProcessing`
* `useAdaptiveCount`    — src/unnamed/part_002, hook `useAdaptiveCount`
* `fadeOpacity` etc.    — src/src/components/canvas/Scene.tsx, `SceneContent` and `FADE_CONFIG`
* `camStep`             — src/src/components/canvas/Scene.tsx, `CameraController`
* `coreRotStep` etc.    — src/src/components/canvas/EnergyCore.tsx, `EnergyCore` frame loop
* `generatePositionsSphere` — src/unnamed/part_002, `generatePositions`, pattern sphere

Numeric values computed by the browser are modelled as exact rationals where the
source only uses field arithmetic, and as real numbers where the source calls
`Math.pow`, `Math.sin`, `Math.cos` or `Math.acos` with non-integer arguments.
-/

-- ==========================================
-- Scroll progress (src/unnamed/part_001, useScrollProgress)
-- ==========================================

/-- Embedding of the body of `handleScroll` in `useScrollProgress`:
`docHeight = scrollHeight - innerHeight`,
`scrollPercent = docHeight > 0 ? scrollTop / docHeight : 0`,
`progress = Math.min(Math.max(scrollPercent, 0), 1)`. -/
def useScrollProgress (scrollY scrollHeight innerHeight : ℚ) : ℚ :=
  let docHeight := scrollHeight - innerHeight
  let scrollPercent := if 0 < docHeight then scrollY / docHeight else 0
  min (max scrollPercent 0) 1

-- ==========================================
-- Mouse normalization (src/unnamed/part_001, useMousePosition)
-- ==========================================

/-- Embedding of `normalizedX: (e.clientX / window.innerWidth) * 2 - 1`
from `handleMouseMove` in `useMousePosition`. -/
def normalizedX (clientX innerWidth : ℚ) : ℚ :=
  clientX / innerWidth * 2 - 1

/-- Embedding of `normalizedY: -(e.clientY / window.innerHeight) * 2 + 1`
from `handleMouseMove` in `useMousePosition`. -/
def normalizedY (clientY innerHeight : ℚ) : ℚ :=
  -(clientY / innerHeight) * 2 + 1

-- ==========================================
-- Quality detection (src/unnamed/part_002, useDeviceQuality)
-- ==========================================

/-- The four quality tiers of the post-processing module. -/
inductive Quality where
  | low
  | medium
  | high
  | ultra
deriving DecidableEq, Repr

/-- Substring test: `s.splitOn pat` has more than one piece exactly when
`pat` occurs in `s`. Used to model the regular-expression tests of the source. -/
def hasSubstr (s pat : String) : Bool :=
  (s.splitOn pat).length != 1

/-- Model of the case-insensitive regular expression
`/RTX|GTX|Radeon RX|Apple M[1-3]/i` applied to the GPU renderer string. -/
def isHighEndGPU (gpuRenderer : String) : Bool :=
  let t := gpuRenderer.toUpper
  hasSubstr t "RTX" || hasSubstr t "GTX" || hasSubstr t "RADEON RX" ||
    hasSubstr t "APPLE M1" || hasSubstr t "APPLE M2" || hasSubstr t "APPLE M3"

/-- The tail of `useDeviceQuality` after the `try` block:
`if (isMobile) return 'low'; if (pixelRatio < 1.5) return 'low';
if (pixelRatio >= 2) return 'high'; return 'medium';`. -/
def fallbackTier (isMobile : Bool) (pixelRatio : ℚ) : Quality :=
  if isMobile then .low
  else if pixelRatio < 3/2 then .low
  else if 2 ≤ pixelRatio then .high
  else .medium

/-- Embedding of `useDeviceQuality` in the post-processing module, executed in a
browser (the `typeof window === 'undefined'` guard is false). The GPU
introspection of the `try` block is an input: `Except.error ()` models the block
throwing, `Except.ok none` models `debugInfo` being null, and
`Except.ok (some s)` models a successfully read renderer string `s`. In the
first two cases control reaches the code after the `try` block, which is
`fallbackTier`. -/
def useDeviceQuality (isMobile : Bool) (pixelRatio : ℚ)
    (gpuIntro : Except Unit (Option String)) : Quality :=
  match gpuIntro with
  | .ok (some gpuRenderer) =>
      if isHighEndGPU gpuRenderer ∧ 2 ≤ pixelRatio then .ultra
      else fallbackTier isMobile pixelRatio
  | _ => fallbackTier isMobile pixelRatio

/-- The information the GPU introspection step contributes to the result:
the renderer string, or its absence (no debug extension, or a thrown and
caught exception). -/
def gpuView (gpuIntro : Except Unit (Option String)) : Option String :=
  match gpuIntro with
  | .ok o => o
  | .error _ => none

-- ==========================================
-- Post-processing pipeline selection (src/unnamed/part_002, PostProcessing)
-- ==========================================

/-- The image-space passes that appear in the two pipelines. -/
inductive Effect where
  | smaa
  | bloom
  | chromaticAberration
  | toneMapping
  | brightnessContrast
  | hueSaturation
  | vignette
  | grain
deriving DecidableEq, Repr

/-- The passes of `MinimalPostProcessing`: bloom and vignette only. -/
def minimalEffects : List Effect := [.bloom, .vignette]

/-- The passes assembled by `FullPostProcessing`, in source order. -/
def fullEffects : List Effect :=
  [.smaa, .bloom, .chromaticAberration, .toneMapping,
   .brightnessContrast, .hueSaturation, .vignette, .grain]

/-- The effective tier of `PostProcessing`: `quality = forcedQuality ?? deviceQuality`. -/
def effectiveQuality (forcedQuality : Option Quality) (deviceQuality : Quality) : Quality :=
  forcedQuality.getD deviceQuality

/-- Which pipeline the `PostProcessing` component renders:
`if (quality === 'low' && !forcedQuality) return <MinimalPostProcessing .../>;`
otherwise `FullPostProcessing`. -/
def postProcessingEffects (forcedQuality : Option Quality) (deviceQuality : Quality) :
    List Effect :=
  let quality := effectiveQuality forcedQuality deviceQuality
  if quality = .low ∧ forcedQuality = none then minimalEffects else fullEffects

-- ==========================================
-- Adaptive particle count (src/unnamed/part_002, useAdaptiveCount)
-- ==========================================

/-- The three-valued quality argument of the particle system. -/
inductive PQuality where
  | low
  | medium
  | high
deriving DecidableEq, Repr

/-- Embedding of `useAdaptiveCount`. Floors are exact:
`Math.floor(baseCount * 0.3)` on a natural `baseCount` is `⌊3 * baseCount / 10⌋`.
The device heuristic of the final branch takes the user-agent match and the
pixel ratio as inputs. -/
def useAdaptiveCount (baseCount : ℕ) (quality : Option PQuality)
    (isMobile : Bool) (pixelRatio : ℚ) : ℕ :=
  match quality with
  | some .low => ⌊(baseCount : ℚ) * (3/10)⌋.toNat
  | some .medium => ⌊(baseCount : ℚ) * (6/10)⌋.toNat
  | some .high => baseCount
  | none =>
      if isMobile || pixelRatio < 3/2 then ⌊(baseCount : ℚ) * (3/10)⌋.toNat
      else if pixelRatio < 2 then ⌊(baseCount : ℚ) * (6/10)⌋.toNat
      else baseCount

-- ==========================================
-- Energy-core fade (Scene.tsx, FADE_CONFIG and SceneContent)
-- ==========================================

/-- FADE_CONFIG.start. -/
def fadeStart : ℚ := 8/100

/-- FADE_CONFIG.end. -/
def fadeEnd : ℚ := 3/10

/-- FADE_CONFIG.minScale. -/
def minScale : ℚ := 1/2

/-- The per-frame fade opacity computed in the `useFrame` callback of
`SceneContent`:
`scrollProgress < start ? 1 : scrollProgress > end ? 0
 : 1 - (scrollProgress - start) / (end - start)`. -/
def fadeOpacity (scrollProgress : ℚ) : ℚ :=
  if scrollProgress < fadeStart then 1
  else if fadeEnd < scrollProgress then 0
  else 1 - (scrollProgress - fadeStart) / (fadeEnd - fadeStart)

/-- The visible flag and the scale written to the core group in one frame:
`isVisible = opacity > 0.01; visible = isVisible; if (!isVisible) return;`
then `scale = minScale + opacity * (1 - minScale)`. The scale is `none` when
the early exit skips the scale update. -/
def coreFadeFrame (scrollProgress : ℚ) : Bool × Option ℚ :=
  let opacity := fadeOpacity scrollProgress
  if 1/100 < opacity then
    (true, some (minScale + opacity * (1 - minScale)))
  else
    (false, none)

/-- Real-valued clamp form of the fade curve, used to state continuity. -/
noncomputable def fadeOpacityR (s : ℝ) : ℝ :=
  min 1 (max 0 ((3/10 - s) / (3/10 - 8/100)))

-- ==========================================
-- Camera smoothing (Scene.tsx, CameraController)
-- ==========================================

/-- CAMERA_CONFIG.lerpSpeed. -/
def lerpSpeed : ℝ := 0.04

/-- The frame-rate corrected interpolation factor of `CameraController`:
`lerpFactor = 1 - Math.pow(0.001, delta * CAMERA_CONFIG.lerpSpeed * 60)`. -/
noncomputable def camLerpFactor (delta : ℝ) : ℝ :=
  1 - (0.001 : ℝ) ^ (delta * lerpSpeed * 60)

/-- One frame of the camera position smoothing, per component:
`currentPos.lerp(targetPos, lerpFactor)`, where three.js lerp is
`current + (target - current) * alpha`. -/
noncomputable def camStep (delta target current : ℝ) : ℝ :=
  current + (target - current) * camLerpFactor delta

-- ==========================================
-- Energy-core rotation smoothing (EnergyCore.tsx, useFrame callback)
-- ==========================================

/-- The interpolation factor of the `EnergyCore` frame loop:
`lerpFactor = 1 - Math.pow(0.001, delta)`. -/
noncomputable def coreLerpFactor (delta : ℝ) : ℝ :=
  1 - (0.001 : ℝ) ^ delta

/-- One frame of the rotation smoothing of `EnergyCore`, per component:
`current += (target - current) * lerpFactor * 3`. -/
noncomputable def coreRotStep (delta target current : ℝ) : ℝ :=
  current + (target - current) * coreLerpFactor delta * 3

/-- The rotation target set each frame from the mouse:
`targetRotation.current.y = mouseX * 0.3; targetRotation.current.x = mouseY * 0.2`.
The pair is `(x component, y component)`. -/
def coreTargetRotation (mouseX mouseY : ℝ) : ℝ × ℝ :=
  (mouseY * 0.2, mouseX * 0.3)

/-- The y rotation written by one frame of the `EnergyCore` loop: the lerp
toward `mouseX * 0.3`, then, when `autoRotate` holds and both mouse components
have magnitude below 0.01, the idle increment
`groupRef.current.rotation.y += delta * 0.1`. -/
noncomputable def coreFrameRotY (mouseX mouseY : ℝ) (autoRotate : Bool)
    (delta currentY : ℝ) : ℝ :=
  let next := coreRotStep delta (mouseX * 0.3) currentY
  if autoRotate = true ∧ |mouseX| < 0.01 ∧ |mouseY| < 0.01 then
    next + delta * 0.1
  else
    next

-- ==========================================
-- Sphere particle generation (src/unnamed/part_002, generatePositions)
-- ==========================================

/-- One particle position of the sphere branch of `generatePositions`:
`radius = 15 + Math.random() * 25; theta = Math.random() * Math.PI * 2;
phi = Math.acos(2 * Math.random() - 1)`, then spherical coordinates. The three
arguments are the three `Math.random()` draws, in source order. -/
noncomputable def spherePoint (u1 u2 u3 : ℝ) : ℝ × ℝ × ℝ :=
  let radius := 15 + u1 * 25
  let theta := u2 * Real.pi * 2
  let phi := Real.arccos (2 * u3 - 1)
  (radius * Real.sin phi * Real.cos theta,
   radius * Real.sin phi * Real.sin theta,
   radius * Real.cos phi)

/-- Embedding of `generatePositions` for `pattern = 'sphere'`. The random
source `rnd` enumerates the `Math.random()` draws; loop iteration `i` consumes
draws `10*i` to `10*i+9`: three for the position, three for the drift velocity
`(Math.random() - 0.5) * 0.02`, and four for the size/speed/phase/brightness
attributes. The result is the `(positions, velocities, randoms)` triple, with
the flat `Float32Array`s represented as lists of tuples. -/
noncomputable def generatePositionsSphere (count : ℕ) (rnd : ℕ → ℝ) :
    List (ℝ × ℝ × ℝ) × List (ℝ × ℝ × ℝ) × List (ℝ × ℝ × ℝ × ℝ) :=
  ((List.range count).map fun i =>
      spherePoint (rnd (10*i)) (rnd (10*i+1)) (rnd (10*i+2)),
   (List.range count).map fun i =>
      ((rnd (10*i+3) - 0.5) * 0.02, (rnd (10*i+4) - 0.5) * 0.02,
       (rnd (10*i+5) - 0.5) * 0.02),
   (List.range count).map fun i =>
      (rnd (10*i+6) * 2 + 0.5, rnd (10*i+7) * 2 + 0.5,
       rnd (10*i+8) * Real.pi * 2, rnd (10*i+9) * 0.5 + 0.5))

/-- Euclidean distance of a coordinate triple from the origin. -/
noncomputable def dist3 (p : ℝ × ℝ × ℝ) : ℝ :=
  Real.sqrt (p.1 ^ 2 + p.2.1 ^ 2 + p.2.2 ^ 2)

-- ==========================================
-- Helper lemmas
-- ==========================================

lemma floor_mul_toNat_le (b : ℕ) (q : ℚ) (hq1 : q ≤ 1) :
    (⌊(b : ℚ) * q⌋).toNat ≤ b := by
  have hb : (0 : ℚ) ≤ (b : ℚ) := Nat.cast_nonneg b
  have hle : (b : ℚ) * q ≤ (b : ℚ) := by nlinarith
  have hfloor : ⌊(b : ℚ) * q⌋ ≤ (b : ℤ) := by
    calc ⌊(b : ℚ) * q⌋ ≤ ⌊(b : ℚ)⌋ := Int.floor_le_floor hle
    _ = (b : ℤ) := by exact_mod_cast Int.floor_intCast (α := ℚ) b
  exact Int.toNat_le.mpr hfloor

-- ==========================================
-- Claim theorems
-- ==========================================

/-- C2: for every scroll offset (negative or beyond the document) and every
document/viewport height (including documents no taller than the viewport),
the progress computed by `useScrollProgress` lies in the closed interval
`[0, 1]`. -/
theorem C2_scroll_progress_in_unit_interval (scrollY scrollHeight innerHeight : ℚ) :
    0 ≤ useScrollProgress scrollY scrollHeight innerHeight ∧
      useScrollProgress scrollY scrollHeight innerHeight ≤ 1 := by
  unfold useScrollProgress
  exact ⟨le_min (le_max_right _ _) zero_le_one, min_le_right _ _⟩

/-- C3: quality-tier selection is a pure function of the mobile user-agent
match, the pixel ratio, and the GPU renderer string or its absence: two
evaluations agreeing on these three inputs return the same tier. In
particular a thrown-and-caught introspection and an absent debug extension
carry the same information. -/
theorem C3_device_quality_pure (m m' : Bool) (p p' : ℚ)
    (g g' : Except Unit (Option String))
    (hm : m = m') (hp : p = p') (hg : gpuView g = gpuView g') :
    useDeviceQuality m p g = useDeviceQuality m' p' g' := by
  subst hm; subst hp
  rcases g with e | o <;> rcases g' with e' | o' <;>
    simp only [gpuView] at hg
  · rfl
  · rcases o' with _ | s
    · rfl
    · exact absurd hg (by simp)
  · rcases o with _ | s
    · rfl
    · exact absurd hg (by simp)
  · rw [hg]

/-- Witness for C3 at concrete inputs: a caught exception and a missing debug
extension yield the same tier. -/
theorem C3_device_quality_pure_witness :
    useDeviceQuality true 1 (Except.error ()) = useDeviceQuality true 1 (Except.ok none) :=
  C3_device_quality_pure true true 1 1 (Except.error ()) (Except.ok none) rfl rfl rfl

/-- C4 counterexample: on a mobile device with pixel ratio 1, a throwing GPU
introspection yields tier low, not medium — the claim that the function then
returns the mid-range tier is false. -/
theorem C4_counterexample_exception_not_medium :
    useDeviceQuality true 1 (Except.error ()) = Quality.low ∧
      Quality.low ≠ Quality.medium := by
  exact ⟨rfl, by decide⟩

/-- C4 (amended): if GPU introspection throws, the exception is caught and the
function falls through to the non-GPU heuristic (low when mobile or pixel
ratio below 1.5, high when pixel ratio at least 2, medium otherwise); the
result is medium exactly when the device is not mobile and the pixel ratio
lies in `[1.5, 2)`. -/
theorem C4_amended_exception_falls_back (isMobile : Bool) (pixelRatio : ℚ) :
    useDeviceQuality isMobile pixelRatio (Except.error ()) =
      fallbackTier isMobile pixelRatio ∧
    (useDeviceQuality isMobile pixelRatio (Except.error ()) = Quality.medium ↔
      isMobile = false ∧ 3/2 ≤ pixelRatio ∧ pixelRatio < 2) := by
  refine ⟨rfl, ?_⟩
  show fallbackTier isMobile pixelRatio = Quality.medium ↔ _
  unfold fallbackTier
  cases isMobile <;> split_ifs with h1 h2 <;> simp_all

/-- C5 counterexample: with quality low supplied as the prop (and a detected
tier that is not low), the effective tier is low yet the component renders the
full effect chain, not the reduced two-pass pipeline. -/
theorem C5_counterexample_forced_low_full_chain :
    effectiveQuality (some Quality.low) Quality.high = Quality.low ∧
      postProcessingEffects (some Quality.low) Quality.high = fullEffects ∧
      fullEffects ≠ minimalEffects := by
  decide

/-- C5 (amended): the reduced two-pass pipeline (bloom and vignette only) is
rendered exactly when the tier is low and was detected, that is, no quality
prop was supplied; a forced low prop renders the full chain. -/
theorem C5_amended_minimal_iff_detected_low (forcedQuality : Option Quality)
    (deviceQuality : Quality) :
    postProcessingEffects forcedQuality deviceQuality = minimalEffects ↔
      forcedQuality = none ∧ deviceQuality = Quality.low := by
  rcases forcedQuality with _ | q
  · cases deviceQuality <;> decide
  · cases q <;> cases deviceQuality <;> decide

/-- C10: the adaptive particle count never exceeds the base count; it is
`⌊0.3 * base⌋` for low, `⌊0.6 * base⌋` for medium, the base count for high,
and one of those three values when the quality argument is absent. -/
theorem C10_adaptive_count_bounds (baseCount : ℕ) (isMobile : Bool)
    (pixelRatio : ℚ) :
    (∀ q : Option PQuality,
        useAdaptiveCount baseCount q isMobile pixelRatio ≤ baseCount) ∧
    useAdaptiveCount baseCount (some PQuality.low) isMobile pixelRatio =
      (⌊(baseCount : ℚ) * (3/10)⌋).toNat ∧
    useAdaptiveCount baseCount (some PQuality.medium) isMobile pixelRatio =
      (⌊(baseCount : ℚ) * (6/10)⌋).toNat ∧
    useAdaptiveCount baseCount (some PQuality.high) isMobile pixelRatio =
      baseCount ∧
    useAdaptiveCount baseCount none isMobile pixelRatio ∈
      [(⌊(baseCount : ℚ) * (3/10)⌋).toNat,
       (⌊(baseCount : ℚ) * (6/10)⌋).toNat, baseCount] := by
  have h3 : (⌊(baseCount : ℚ) * (3/10)⌋).toNat ≤ baseCount :=
    floor_mul_toNat_le baseCount (3/10) (by norm_num)
  have h6 : (⌊(baseCount : ℚ) * (6/10)⌋).toNat ≤ baseCount :=
    floor_mul_toNat_le baseCount (6/10) (by norm_num)
  refine ⟨?_, rfl, rfl, rfl, ?_⟩
  · rintro (_ | (_ | _ | _))
    · unfold useAdaptiveCount
      split_ifs <;> first | exact h3 | exact h6 | exact le_rfl
    · exact h3
    · exact h6
    · exact le_rfl
  · unfold useAdaptiveCount
    split_ifs <;> simp

/-- C8: with the viewport positive and the pointer inside it, both normalized
mouse coordinates lie in `[-1, 1]`; the x axis maps `clientX = 0` to `-1` and
`clientX = innerWidth` to `1`, and the y axis is inverted, mapping
`clientY = 0` to `1`. -/
theorem C8_normalized_mouse_bounds (clientX clientY w h : ℚ)
    (hw : 0 < w) (hh : 0 < h) (hx0 : 0 ≤ clientX) (hxw : clientX ≤ w)
    (hy0 : 0 ≤ clientY) (hyh : clientY ≤ h) :
    (-1 ≤ normalizedX clientX w ∧ normalizedX clientX w ≤ 1) ∧
    (-1 ≤ normalizedY clientY h ∧ normalizedY clientY h ≤ 1) ∧
    normalizedX 0 w = -1 ∧ normalizedX w w = 1 ∧ normalizedY 0 h = 1 := by
  have h1 : 0 ≤ clientX / w := div_nonneg hx0 hw.le
  have h2 : clientX / w ≤ 1 := (div_le_one hw).mpr hxw
  have h3 : 0 ≤ clientY / h := div_nonneg hy0 hh.le
  have h4 : clientY / h ≤ 1 := (div_le_one hh).mpr hyh
  unfold normalizedX normalizedY
  refine ⟨⟨by linarith, by linarith⟩, ⟨by linarith, by linarith⟩, ?_, ?_, ?_⟩
  · rw [zero_div]; norm_num
  · rw [div_self hw.ne']; norm_num
  · rw [zero_div]; norm_num

/-- Witness for C8 at a concrete viewport and pointer. -/
theorem C8_normalized_mouse_bounds_witness :
    (-1 ≤ normalizedX 1 2 ∧ normalizedX 1 2 ≤ 1) ∧
    (-1 ≤ normalizedY 1 2 ∧ normalizedY 1 2 ≤ 1) ∧
    normalizedX 0 2 = -1 ∧ normalizedX 2 2 = 1 ∧ normalizedY 0 2 = 1 :=
  C8_normalized_mouse_bounds 1 1 2 2 (by norm_num) (by norm_num) (by norm_num)
    (by norm_num) (by norm_num) (by norm_num)

lemma fadeOpacity_eq_clamp (s : ℚ) :
    fadeOpacity s = min 1 (max 0 ((3/10 - s) / (3/10 - 8/100))) := by
  have hd : (0 : ℚ) < 3/10 - 8/100 := by norm_num
  unfold fadeOpacity fadeStart fadeEnd
  split_ifs with h1 h2
  · have hx : (1 : ℚ) ≤ (3/10 - s) / (3/10 - 8/100) := by
      rw [le_div_iff₀ hd]; linarith
    rw [max_eq_right (le_trans zero_le_one hx), min_eq_left hx]
  · have hx : (3/10 - s) / (3/10 - 8/100) ≤ 0 :=
      div_nonpos_iff.mpr (Or.inr ⟨by linarith, hd.le⟩)
    rw [max_eq_left hx, min_eq_right zero_le_one]
  · have hx0 : (0 : ℚ) ≤ (3/10 - s) / (3/10 - 8/100) :=
      div_nonneg (by linarith) hd.le
    have hx1 : (3/10 - s) / (3/10 - 8/100) ≤ 1 := by
      rw [div_le_iff₀ hd]; linarith
    rw [max_eq_right hx0, min_eq_right hx1]
    field_simp
    ring
  
lemma fadeOpacity_mem_unit (s : ℚ) : 0 ≤ fadeOpacity s ∧ fadeOpacity s ≤ 1 := by
  rw [fadeOpacity_eq_clamp]
  exact ⟨le_min zero_le_one (le_max_left 0 _), min_le_left 1 _⟩

/-- C9: the per-frame fade opacity of the energy core is 1 at or below scroll
progress 0.08, is 0 at or above 0.3, interpolates linearly in between, is
monotonically non-increasing, agrees with a clamp function whose real
extension is continuous, the core group is visible exactly when the opacity
exceeds 0.01, and any scale written is confined to `[0.5, 1]`. -/
theorem C9_core_fade_curve (s : ℚ) :
    (s ≤ 8/100 → fadeOpacity s = 1) ∧
    (3/10 ≤ s → fadeOpacity s = 0) ∧
    (8/100 ≤ s → s ≤ 3/10 →
      fadeOpacity s = 1 - (s - 8/100) / (3/10 - 8/100)) ∧
    (∀ t : ℚ, s ≤ t → fadeOpacity t ≤ fadeOpacity s) ∧
    ((fadeOpacity s : ℝ) = fadeOpacityR (s : ℝ)) ∧
    Continuous fadeOpacityR ∧
    ((coreFadeFrame s).1 = true ↔ 1/100 < fadeOpacity s) ∧
    (∀ sc : ℚ, (coreFadeFrame s).2 = some sc → 1/2 ≤ sc ∧ sc ≤ 1) := by
  have hd : (0 : ℚ) < 3/10 - 8/100 := by norm_num
  refine ⟨?_, ?_, ?_, ?_, ?_, ?_, ?_, ?_⟩
  · intro hs
    rw [fadeOpacity_eq_clamp]
    have hx : (1 : ℚ) ≤ (3/10 - s) / (3/10 - 8/100) := by
      rw [le_div_iff₀ hd]; linarith
    rw [max_eq_right (le_trans zero_le_one hx), min_eq_left hx]
  · intro hs
    rw [fadeOpacity_eq_clamp]
    have hx : (3/10 - s) / (3/10 - 8/100) ≤ 0 :=
      div_nonpos_iff.mpr (Or.inr ⟨by linarith, hd.le⟩)
    rw [max_eq_left hx, min_eq_right zero_le_one]
  · intro hs1 hs2
    unfold fadeOpacity fadeStart fadeEnd
    split_ifs with h1 h2
    · exfalso; linarith
    · have hs : s = 3/10 := le_antisymm hs2 h2.le
      rw [hs]; norm_num
    · rfl
  · intro t hst
    rw [fadeOpacity_eq_clamp, fadeOpacity_eq_clamp]
    refine min_le_min le_rfl (max_le_max le_rfl ?_)
    exact (div_le_div_iff_of_pos_right hd).mpr (by linarith)
  · rw [fadeOpacity_eq_clamp]
    unfold fadeOpacityR
    push_cast
    norm_num
  · unfold fadeOpacityR
    exact continuous_const.min
      (continuous_const.max ((continuous_const.sub continuous_id).div_const _))
  · simp only [coreFadeFrame]
    split_ifs with hvis
    · simpa using hvis
    · simpa using hvis
  · intro sc hsc
    have hop := fadeOpacity_mem_unit s
    simp only [coreFadeFrame] at hsc
    split_ifs at hsc with hvis
    · simp only [Option.some.injEq] at hsc
      unfold minScale at hsc
      constructor <;> nlinarith [hop.1, hop.2, hsc]

/-- Witness for C9: at scroll progress 0 the fade opacity is 1, and at scroll
progress 1 the frame leaves the core invisible. -/
theorem C9_core_fade_curve_witness :
    (0 : ℚ) ≤ 8/100 ∧ fadeOpacity 0 = 1 ∧ (1 : ℚ) ≥ 3/10 ∧ fadeOpacity 1 = 0 :=
  ⟨by norm_num, (C9_core_fade_curve 0).1 (by norm_num), by norm_num,
    (C9_core_fade_curve 1).2.1 (by norm_num)⟩

/-- C7: with the mouse at the viewport center both normalized coordinates are
0, the energy-core rotation target is `(0, 0)`, with `autoRotate` and the
pointer idle the frame starting at the settled rotation 0 advances the y
rotation by exactly `delta * 0.1` (pure auto-rotation, no pointer
contribution), and when either pointer magnitude reaches 0.01 the increment is
not applied and the frame is the pointer-driven lerp alone. -/
theorem C7_center_mouse_idle_auto_rotation (w h : ℚ) (delta : ℝ)
    (hw : w ≠ 0) (hh : h ≠ 0) :
    normalizedX (w/2) w = 0 ∧ normalizedY (h/2) h = 0 ∧
    coreTargetRotation ((normalizedX (w/2) w : ℚ) : ℝ)
      ((normalizedY (h/2) h : ℚ) : ℝ) = (0, 0) ∧
    coreFrameRotY 0 0 true delta 0 = delta * 0.1 ∧
    (∀ mx my cy : ℝ, ¬(|mx| < 0.01 ∧ |my| < 0.01) →
      coreFrameRotY mx my true delta cy = coreRotStep delta (mx * 0.3) cy) := by
  have hX : normalizedX (w/2) w = 0 := by
    unfold normalizedX
    field_simp
    ring
  have hY : normalizedY (h/2) h = 0 := by
    unfold normalizedY
    field_simp
    ring
  refine ⟨hX, hY, ?_, ?_, ?_⟩
  · rw [hX, hY]
    unfold coreTargetRotation
    norm_num
  · simp only [coreFrameRotY, coreRotStep]
    rw [if_pos ⟨trivial, by norm_num, by norm_num⟩]
    ring
  · intro mx my cy hidle
    simp only [coreFrameRotY]
    rw [if_neg]
    rintro ⟨-, hmx, hmy⟩
    exact hidle ⟨hmx, hmy⟩

/-- Witness for C7 at a concrete viewport and frame duration. -/
theorem C7_center_mouse_idle_auto_rotation_witness :
    normalizedX (2/2) 2 = 0 ∧ coreFrameRotY 0 0 true 1 0 = 1 * 0.1 := by
  have h := C7_center_mouse_idle_auto_rotation 2 2 1 (by norm_num) (by norm_num)
  exact ⟨h.1, h.2.2.2.1⟩

/-- C1 counterexample: one frame of the EnergyCore rotation smoothing with
frame duration 1 second, target 1 and current value 0 lands at 2.997: it
overshoots the fixed target and ends farther from it than where it started,
so the EnergyCore smoothing update does not converge monotonically. -/
theorem C1_counterexample_core_overshoot :
    coreRotStep 1 1 0 = 2.997 ∧ 1 < coreRotStep 1 1 0 ∧
      |1 - coreRotStep 1 1 0| > |1 - (0 : ℝ)| := by
  have h : coreRotStep 1 1 0 = 2.997 := by
    unfold coreRotStep coreLerpFactor
    rw [Real.rpow_one]
    norm_num
  refine ⟨h, by rw [h]; norm_num, ?_⟩
  rw [h, show (1 : ℝ) - 2.997 = -(1.997) by norm_num, abs_neg,
    abs_of_nonneg (by norm_num : (0:ℝ) ≤ 1.997),
    show (1 : ℝ) - 0 = 1 by norm_num,
    abs_of_nonneg (by norm_num : (0:ℝ) ≤ 1)]
  norm_num

lemma camStep_sub_target (delta target current : ℝ) :
    camStep delta target current - target =
      (current - target) * (0.001 : ℝ) ^ (delta * lerpSpeed * 60) := by
  unfold camStep camLerpFactor
  ring

lemma coreRotStep_sub_target (delta target current : ℝ) :
    coreRotStep delta target current - target =
      (current - target) * (1 - 3 * (1 - (0.001 : ℝ) ^ delta)) := by
  unfold coreRotStep coreLerpFactor
  ring

/-- C1 (amended): the camera position lerp of `CameraController` has the full
claimed property: it composes over frame splits (the value after a total
elapsed time does not depend on how the time is divided into frames), and each
frame of positive duration keeps the value on the same side of the target and
no farther from it. The EnergyCore rotation lerp only has the monotone
no-overshoot property for frame durations whose effective factor
`3 * (1 - 0.001 ^ delta)` does not exceed 1 (durations up to about 59 ms);
for longer frames it can overshoot, as the counterexample shows. -/
theorem C1_amended_smoothing :
    (∀ d1 d2 target c : ℝ,
        camStep d2 target (camStep d1 target c) = camStep (d1 + d2) target c) ∧
    (∀ d target c : ℝ, 0 < d →
        |camStep d target c - target| ≤ |c - target| ∧
        0 ≤ (target - camStep d target c) * (target - c)) ∧
    (∀ d target c : ℝ, 0 < d → 3 * (1 - (0.001 : ℝ) ^ d) ≤ 1 →
        |coreRotStep d target c - target| ≤ |c - target| ∧
        0 ≤ (target - coreRotStep d target c) * (target - c)) := by
  refine ⟨?_, ?_, ?_⟩
  · intro d1 d2 t c
    have h : (0.001 : ℝ) ^ ((d1 + d2) * lerpSpeed * 60) =
        (0.001 : ℝ) ^ (d1 * lerpSpeed * 60) * (0.001 : ℝ) ^ (d2 * lerpSpeed * 60) := by
      rw [show (d1 + d2) * lerpSpeed * 60 =
            d1 * lerpSpeed * 60 + d2 * lerpSpeed * 60 by ring,
          Real.rpow_add (by norm_num : (0 : ℝ) < 0.001)]
    unfold camStep camLerpFactor
    linear_combination (t - c) * h
  · intro d t c hd
    have hq0 : 0 < (0.001 : ℝ) ^ (d * lerpSpeed * 60) :=
      Real.rpow_pos_of_pos (by norm_num) _
    have hq1 : (0.001 : ℝ) ^ (d * lerpSpeed * 60) < 1 := by
      apply Real.rpow_lt_one (by norm_num) (by norm_num)
      unfold lerpSpeed
      linarith
    constructor
    · rw [show camStep d t c - t =
          (c - t) * (0.001 : ℝ) ^ (d * lerpSpeed * 60) from camStep_sub_target d t c,
        abs_mul, abs_of_pos hq0]
      exact mul_le_of_le_one_right (abs_nonneg _) hq1.le
    · have h2 : t - camStep d t c = (t - c) * (0.001 : ℝ) ^ (d * lerpSpeed * 60) := by
        unfold camStep camLerpFactor
        ring
      rw [h2]
      nlinarith [mul_nonneg (mul_self_nonneg (t - c)) hq0.le]
  · intro d t c hd hfac
    have hq0 : 0 < (0.001 : ℝ) ^ d := Real.rpow_pos_of_pos (by norm_num) _
    have hq1 : (0.001 : ℝ) ^ d < 1 :=
      Real.rpow_lt_one (by norm_num) (by norm_num) hd
    have hr0 : 0 ≤ 1 - 3 * (1 - (0.001 : ℝ) ^ d) := by linarith
    have hr1 : 1 - 3 * (1 - (0.001 : ℝ) ^ d) < 1 := by linarith
    constructor
    · rw [coreRotStep_sub_target, abs_mul, abs_of_nonneg hr0]
      exact mul_le_of_le_one_right (abs_nonneg _) hr1.le
    · have h2 : t - coreRotStep d t c =
          (t - c) * (1 - 3 * (1 - (0.001 : ℝ) ^ d)) := by
        unfold coreRotStep coreLerpFactor
        ring
      rw [h2]
      nlinarith [mul_nonneg (mul_self_nonneg (t - c)) hr0]

/-- Witness for C1 (amended): the camera part at frame duration 1, the core
part at frame duration 1/20 of a second, where the factor bound holds. -/
theorem C1_amended_smoothing_witness :
    (0 : ℝ) < 1 ∧ |camStep 1 0 2 - 0| ≤ |(2 : ℝ) - 0| ∧
    (0 : ℝ) < 1/20 ∧ 3 * (1 - (0.001 : ℝ) ^ ((1:ℝ)/20)) ≤ 1 ∧
    |coreRotStep ((1:ℝ)/20) 0 2 - 0| ≤ |(2 : ℝ) - 0| := by
  have h20 : ((0.001 : ℝ) ^ ((1:ℝ)/20)) ^ (20 : ℕ) = 0.001 := by
    rw [← Real.rpow_natCast ((0.001 : ℝ) ^ ((1:ℝ)/20)) 20,
      ← Real.rpow_mul (by norm_num : (0 : ℝ) ≤ 0.001)]
    norm_num
  have hy0 : (0 : ℝ) ≤ (0.001 : ℝ) ^ ((1:ℝ)/20) :=
    (Real.rpow_pos_of_pos (by norm_num) _).le
  have hy : (2/3 : ℝ) ≤ (0.001 : ℝ) ^ ((1:ℝ)/20) := by
    by_contra hlt
    push_neg at hlt
    have hpow := pow_lt_pow_left₀ hlt hy0 (n := 20)
    rw [h20] at hpow
    norm_num at hpow
  have hcore : 3 * (1 - (0.001 : ℝ) ^ ((1:ℝ)/20)) ≤ 1 := by linarith
  exact ⟨one_pos, (C1_amended_smoothing.2.1 1 0 2 one_pos).1, by norm_num, hcore,
    (C1_amended_smoothing.2.2 ((1:ℝ)/20) 0 2 (by norm_num) hcore).1⟩

lemma spherePoint_dist (u1 u2 u3 : ℝ) (h : 0 ≤ u1) :
    dist3 (spherePoint u1 u2 u3) = 15 + u1 * 25 := by
  have key : ∀ r θ φ : ℝ,
      (r * Real.sin φ * Real.cos θ) ^ 2 + (r * Real.sin φ * Real.sin θ) ^ 2 +
        (r * Real.cos φ) ^ 2 = r ^ 2 := by
    intro r θ φ
    have h1 := Real.sin_sq_add_cos_sq θ
    have h2 := Real.sin_sq_add_cos_sq φ
    linear_combination (r ^ 2 * Real.sin φ ^ 2) * h1 + r ^ 2 * h2
  simp only [spherePoint, dist3]
  rw [key]
  exact Real.sqrt_sq (by linarith)

/-- C6: for every count and every random source valued in `[0, 1)`, the sphere
pattern of `generatePositions` yields exactly `count` position triples, and
each triple lies at Euclidean distance between 15 and 40 from the origin. -/
theorem C6_sphere_positions (count : ℕ) (rnd : ℕ → ℝ)
    (hr : ∀ n, 0 ≤ rnd n ∧ rnd n < 1) :
    ((generatePositionsSphere count rnd).1).length = count ∧
    ∀ p ∈ (generatePositionsSphere count rnd).1,
      15 ≤ dist3 p ∧ dist3 p ≤ 40 := by
  constructor
  · simp [generatePositionsSphere]
  · intro p hp
    simp only [generatePositionsSphere, List.mem_map, List.mem_range] at hp
    obtain ⟨i, -, hpe⟩ := hp
    obtain ⟨h0, h1⟩ := hr (10 * i)
    rw [← hpe, spherePoint_dist _ _ _ h0]
    constructor <;> linarith

/-- Witness for C6 with a concrete count and the constant-zero random source. -/
theorem C6_sphere_positions_witness :
    ((generatePositionsSphere 1 (Function.const ℕ (0 : ℝ))).1).length = 1 :=
  (C6_sphere_positions 1 (Function.const ℕ 0)
    (by intro n; exact ⟨le_rfl, by norm_num⟩)).1
